import Mathlib

/-!
Verification of the GitLab LLM code-review service against its
natural-language specification.  The Python sources are shallowly embedded
as executable Lean definitions: pure helpers become Lean functions, the
stateful parts (database, host API, LLM client) become explicit state
passing over inductive state types, and fallible calls return `Except`.
-/

namespace GitlabReview

/-! ## Embedding of `src/utils.py` (file-type support check)

`SUPPORTED_EXTENSIONS` and `SPECIAL_FILENAMES` are transcribed from the
module-level constants; `is_supported_file` follows the Python function
line by line, with `pathlib.Path(file_path).suffix` modelled by
`pathSuffix` below. -/

def SUPPORTED_EXTENSIONS : List String :=
  [".c", ".h", ".cpp", ".cc", ".cxx", ".c++", ".hpp", ".hh", ".hxx", ".h++",
   ".cs",
   ".go",
   ".rs",
   ".java",
   ".kt", ".kts",
   ".swift",
   ".m", ".mm",
   ".storyboard", ".xib", ".xcassets",
   ".ets", ".hml",
   ".js", ".mjs", ".cjs", ".ts", ".jsx", ".tsx",
   ".wxml", ".wxs",
   ".axml", ".sjs",
   ".ttml",
   ".ksml",
   ".swan",
   ".dart",
   ".vue",
   ".html", ".htm", ".css", ".scss", ".less",
   ".php", ".phtml",
   ".py", ".pyw", ".pyi",
   ".rb", ".erb", ".rake",
   ".sh", ".bash", ".zsh", ".ksh",
   ".lua",
   ".json", ".yaml", ".yml", ".xml",
   ".mk"]

def SPECIAL_FILENAMES : List String := ["Makefile"]

/-- Split a character list at every occurrence of `sep`, keeping empty
chunks, as Python's `str.split(sep)` does. -/
def splitOnSep (sep : Char) : List Char → List (List Char)
  | [] => [[]]
  | c :: cs =>
    match splitOnSep sep cs with
    | [] => [[c]]
    | h :: t => if c = sep then [] :: h :: t else (c :: h) :: t

/-- `pathlib.Path(p).name` for POSIX paths: the last nonempty
`/`-separated component (trailing and repeated slashes are ignored). -/
def pathName (p : String) : String :=
  ⟨((splitOnSep '/' p.data).filter (fun c => c ≠ [])).getLastD []⟩

/-- `pathlib.PurePath.suffix` applied to a bare file name: the substring
from the last dot to the end, except that it is empty when the name has no
dot, when everything before the last dot is empty (hidden files such as
`.py`), or when the name ends with a dot. -/
def nameSuffix (name : String) : String :=
  let parts := splitOnSep '.' name.data
  let last := parts.getLastD []
  if 2 ≤ parts.length ∧ last ≠ [] ∧ List.intercalate ['.'] parts.dropLast ≠ [] then
    ⟨'.' :: last⟩
  else ""

/-- `pathlib.Path(p).suffix`. -/
def pathSuffix (p : String) : String :=
  nameSuffix (pathName p)

/-- `str.lower()` restricted to ASCII, which covers every extension in the
allow-list (`String.toLower` itself does not reduce inside the kernel). -/
def strToLower (s : String) : String :=
  ⟨s.data.map Char.toLower⟩

/-- `utils.is_supported_file`.  Mirrors the Python body: empty path check,
whole-path membership in `SPECIAL_FILENAMES`, then membership of the
*lower-cased* `Path(file_path).suffix` in `SUPPORTED_EXTENSIONS`. -/
def is_supported_file (file_path : String) : Bool :=
  if file_path = "" then false
  else if file_path ∈ SPECIAL_FILENAMES then true
  else if strToLower (pathSuffix file_path) ∈ SUPPORTED_EXTENSIONS then true
  else false

/-! ## Embedding of `ReviewManager._should_review_file`

A GitLab change dict is embedded as a structure; a missing or empty string
field is represented by `""` (the Python code reads every field with
`dict.get` and then tests truthiness, so `None`, a missing key and `""`
behave identically), and the boolean flags by `Bool`. -/

structure Change where
  old_path : String
  new_path : String
  deleted_file : Bool
  renamed_file : Bool
  diff : String
deriving DecidableEq

/-- `file_path = change.get('new_path', '') or change.get('old_path', '')`. -/
def effectiveFilePath (c : Change) : String :=
  if c.new_path ≠ "" then c.new_path else c.old_path

/-- `ReviewManager._should_review_file` (the project/MR arguments only feed
log messages and are dropped). -/
def _should_review_file (c : Change) : Bool :=
  let file_path := effectiveFilePath c
  if ¬ is_supported_file file_path then false
  else if c.deleted_file then false
  else if c.renamed_file ∧ c.diff = "" then false
  else true

/-! ## Embedding of `ReviewManager._review_mr_change_files`

`asyncio.gather(*review_tasks, return_exceptions=True)` yields, per task,
either the pipeline's boolean or the exception object; this is the
`FileReviewResult` sum type.  The statistics loop and the auto-approval
decision are transcribed from the coordinator body. -/

inductive FileReviewResult where
  | ok (approved : Bool)
  | exn
deriving DecidableEq

/-- The `for i, result in enumerate(results)` loop: running
`(approved_count, error_count)` accumulators. -/
def tallyResults (results : List FileReviewResult) : Nat × Nat :=
  results.foldl
    (fun ae r =>
      match r with
      | .exn => (ae.1, ae.2 + 1)
      | .ok b => if b then (ae.1 + 1, ae.2) else ae)
    (0, 0)

def approvedCount (results : List FileReviewResult) : Nat :=
  (tallyResults results).1

def errorCount (results : List FileReviewResult) : Nat :=
  (tallyResults results).2

/-- `total_reviewed = len(review_tasks) - error_count`. -/
def totalReviewed (results : List FileReviewResult) : Nat :=
  results.length - errorCount results

/-- `if approved_count == total_reviewed and total_reviewed > 0`. -/
def autoApprove (results : List FileReviewResult) : Bool :=
  approvedCount results = totalReviewed results ∧ 0 < totalReviewed results

/-- What one per-file pipeline run produced: its gathered result and how
many LLM chat calls it made. -/
structure PipelineStats where
  result : FileReviewResult
  llmCalls : Nat
deriving DecidableEq

/-- Observable outcome of one `_review_mr_change_files` call. -/
structure CoordinatorOutcome where
  notifications : Nat
  invoked : List Change
  llmCalls : Nat
  approvedMr : Bool
deriving DecidableEq

/-- `ReviewManager._review_mr_change_files`, parametrised by the per-file
pipeline `pipe`: filter the changes through `_should_review_file`, return
early when nothing is eligible, post the single file-limit notification
when more than 20 files are eligible, otherwise run every eligible file's
pipeline and auto-approve on the tally. -/
def review_mr_change_files (changes : List Change)
    (pipe : Change → PipelineStats) : CoordinatorOutcome :=
  let eligible := changes.filter (fun c => _should_review_file c)
  if eligible = [] then ⟨0, [], 0, false⟩
  else if 20 < eligible.length then ⟨1, [], 0, false⟩
  else
    let stats := eligible.map pipe
    ⟨0, eligible, (stats.map (fun s => s.llmCalls)).sum,
      autoApprove (stats.map (fun s => s.result))⟩

/-! ## Embedding of the per-file review pipeline

`_review_single_file` and its callees.  An LLM verdict dict is embedded as
`LlmResp`, whose `issues`/`suggestions` entries hold either the parsed JSON
list of strings or — after `_update_llm_resp` — the joined numbered-list
string (`JVal` is the sum of the two shapes).  Every fallible host/storage
call is driven by a boolean oracle in `FileEnv`; a Python `try/except`
becomes `pyTry` over `Except`, and the side effects of a run (LLM calls,
persisted rows, posted comments, logged errors) are collected in
`Effects`. -/

inductive JVal where
  | str (s : String)
  | arr (l : List String)
deriving DecidableEq

structure LlmResp where
  approved : Bool
  issues : JVal
  suggestions : JVal
  score : Int
  summary : String
deriving DecidableEq

/-- Python iteration over a dict value that is either a list of strings or
a string (iterating a string yields its one-character strings). -/
def pyIter : JVal → List String
  | .arr l => l
  | .str s => s.data.map (fun c => String.mk [c])

/-- `'\n'.join(f'{i}. {x}' for i, x in enumerate(xs, start=1))`. -/
def numberedJoin (items : List String) : String :=
  String.intercalate "\n" (items.enum.map (fun p => toString (p.1 + 1) ++ ". " ++ p.2))

/-- `ReviewManager._update_llm_resp`: replace the `issues` and
`suggestions` entries by their 1-based numbered-list rendering. -/
def _update_llm_resp (r : LlmResp) : LlmResp :=
  { r with
      issues := .str (numberedJoin (pyIter r.issues)),
      suggestions := .str (numberedJoin (pyIter r.suggestions)) }

/-- A `ReviewFileRecord` row as `curd.create_review_file_record` writes it
(the keyword arguments it receives from `**llm_resp`). -/
structure FileRecord where
  approved : Bool
  score : Int
  issue : JVal
  suggestion : JVal
  summary : String
  llm_model : String
deriving DecidableEq

/-- `create_review_file_record(discussion_id=…, llm_model=model, **resp)`. -/
def recordOf (model : String) (resp : LlmResp) : FileRecord :=
  ⟨resp.approved, resp.score, resp.issues, resp.suggestions, resp.summary, model⟩

/-- Observable side effects of one pipeline run. -/
structure Effects where
  llmCalls : Nat
  records : List FileRecord
  messagesPersisted : Nat
  discussionRows : Nat
  commentInputs : List LlmResp
  errorsLogged : Nat
deriving DecidableEq

def Effects.nil : Effects := ⟨0, [], 0, 0, [], 0⟩

instance : Add Effects :=
  ⟨fun a b =>
    ⟨a.llmCalls + b.llmCalls, a.records ++ b.records,
      a.messagesPersisted + b.messagesPersisted,
      a.discussionRows + b.discussionRows,
      a.commentInputs ++ b.commentInputs,
      a.errorsLogged + b.errorsLogged⟩⟩

/-- One logged error and nothing else. -/
def logErr : Effects := ⟨0, [], 0, 0, [], 1⟩

/-- The oracles that drive one `_review_single_file` run: which fallible
host/storage calls raise, what the LLM answers, and what
`get_discussion_id` finds. -/
structure FileEnv where
  model : String
  hasStoredDiscussion : Bool
  getDiscussionIdRaises : Bool
  fetchDiscussionRaises : Bool
  discussionResolved : Bool
  noteResolved : List Bool
  getHistoryRaises : Bool
  llmRaises : Bool
  llmVerdict : LlmResp
  createRecordRaises : Bool
  createUserMsgRaises : Bool
  createAsstMsgRaises : Bool
  postCommentRaises : Bool
  hostCreateDiscussionRaises : Bool
  createDiscussionRowRaises : Bool
  resolveRaises : Bool
deriving DecidableEq

/-- A Python computation that either returns a value or raises, carrying
the effects performed up to that point. -/
abbrev PyResult (α : Type) := Except (String × Effects) (α × Effects)

/-- A Python `try: body except: handler`. -/
def pyTry {α : Type} (body : PyResult α) (handler : String → Effects → α × Effects) :
    α × Effects :=
  match body with
  | .ok r => r
  | .error (msg, eff) => handler msg eff

/-- The default-rejected verdict `_perform_llm_review` substitutes when the
LLM service raises (the strings stand for the i18n-rendered texts). -/
def defaultRejectedVerdict : LlmResp :=
  ⟨false, .arr ["response.llm_service_error"],
    .arr ["response.llm_service_retry_suggestion"], -1,
    "response.llm_service_error_summary"⟩

/-- `ReviewManager._perform_llm_review`: one `Service.chat` call; an LLM
exception is caught, logged and replaced by the default-rejected verdict;
either way `_update_llm_resp` is applied to the result. -/
def _perform_llm_review (env : FileEnv) : LlmResp × Effects :=
  if env.llmRaises then
    (_update_llm_resp defaultRejectedVerdict, ⟨1, [], 0, 0, [], 1⟩)
  else
    (_update_llm_resp env.llmVerdict, ⟨1, [], 0, 0, [], 0⟩)

/-- The `try` body of `ReviewManager._save_discussion_records`: the record
row, then the user message, then the assistant message; the first storage
failure aborts the sequence. -/
def _save_discussion_records_body (env : FileEnv) (resp : LlmResp) : PyResult Unit :=
  if env.createRecordRaises then .error ("SQLAlchemyError", Effects.nil)
  else
    let recEff : Effects := ⟨0, [recordOf env.model resp], 0, 0, [], 0⟩
    if env.createUserMsgRaises then .error ("SQLAlchemyError", recEff)
    else
      let userEff : Effects := ⟨0, [], 1, 0, [], 0⟩
      if env.createAsstMsgRaises then .error ("SQLAlchemyError", recEff + userEff)
      else .ok ((), recEff + userEff + ⟨0, [], 1, 0, [], 0⟩)

/-- `ReviewManager._save_discussion_records`: its own `except` clause logs
any storage failure and returns normally. -/
def _save_discussion_records (env : FileEnv) (resp : LlmResp) : Effects :=
  (pyTry (_save_discussion_records_body env resp) (fun _ eff => ((), eff + logErr))).2

/-- `ReviewManager._resolve_discussion`: catches its own host failure. -/
def _resolve_discussion (env : FileEnv) : Effects :=
  if env.resolveRaises then logErr else Effects.nil

/-- The `try` body of `ReviewManager._update_existing_discussion`. -/
def _update_existing_discussion_body (env : FileEnv) : PyResult Bool :=
  if env.fetchDiscussionRaises then .error ("GitlabGetError", Effects.nil)
  else if env.discussionResolved || env.noteResolved.any (fun b => b) then
    .ok (true, Effects.nil)
  else if env.getHistoryRaises then .error ("SQLAlchemyError", Effects.nil)
  else
    let re := _perform_llm_review env
    let se := _save_discussion_records env re.1
    if env.postCommentRaises then .error ("GitlabError", re.2 + se)
    else
      let ce : Effects := ⟨0, [], 0, 0, [re.1], 0⟩
      if re.1.approved then .ok (true, re.2 + se + ce + _resolve_discussion env)
      else .ok (false, re.2 + se + ce)

def _update_existing_discussion (env : FileEnv) : Bool × Effects :=
  pyTry (_update_existing_discussion_body env) (fun _ eff => (false, eff + logErr))

/-- The `try` body of `ReviewManager._create_new_discussion`. -/
def _create_new_discussion_body (env : FileEnv) : PyResult Bool :=
  let re := _perform_llm_review env
  if env.hostCreateDiscussionRaises then .error ("GitlabError", re.2)
  else
    let ce : Effects := ⟨0, [], 0, 0, [re.1], 0⟩
    if env.createDiscussionRowRaises then .error ("SQLAlchemyError", re.2 + ce)
    else
      let de : Effects := ⟨0, [], 0, 1, [], 0⟩
      let se := _save_discussion_records env re.1
      if re.1.approved then .ok (true, re.2 + ce + de + se + _resolve_discussion env)
      else .ok (false, re.2 + ce + de + se)

def _create_new_discussion (env : FileEnv) : Bool × Effects :=
  pyTry (_create_new_discussion_body env) (fun _ eff => (false, eff + logErr))

/-! ## Embedding of the LLM-message store (`src/curd.py`, `src/models.py`)

A `review_file_llm_message` row keeps an auto-increment primary key `id`,
the owning `review_discussion_id`, a role and a content.  The database is
the list of rows in insertion order together with the next key;
`get_review_file_llm_messages` sorts the discussion's rows `ORDER BY id`
(modelled by insertion sort on the key) and projects them to role/content
pairs. -/

structure Msg where
  id : Nat
  review_discussion_id : Nat
  role : String
  content : String
deriving DecidableEq

structure DB where
  msgs : List Msg
  nextId : Nat
deriving DecidableEq

def DB.empty : DB := ⟨[], 0⟩

/-- `curd.create_review_file_llm_message` on its success path (the
discussion lookup resolved to `rdid`): insert one row with the
auto-increment key. -/
def create_review_file_llm_message (db : DB) (rdid : Nat)
    (role content : String) : DB :=
  ⟨db.msgs ++ [⟨db.nextId, rdid, role, content⟩], db.nextId + 1⟩

def insertById (m : Msg) : List Msg → List Msg
  | [] => [m]
  | x :: xs => if m.id ≤ x.id then m :: x :: xs else x :: insertById m xs

/-- `ORDER BY review_file_llm_message.id`. -/
def sortById : List Msg → List Msg
  | [] => []
  | x :: xs => insertById x (sortById xs)

/-- `curd.get_review_file_llm_messages`: the discussion's rows ordered by
primary key, projected to `{"role": …, "content": …}` dicts. -/
def get_review_file_llm_messages (db : DB) (rdid : Nat) : List (String × String) :=
  (sortById (db.msgs.filter (fun m => m.review_discussion_id = rdid))).map
    (fun m => (m.role, m.content))

/-- The message-saving half of `_save_discussion_records` on its success
path: the user turn is persisted first, then the assistant turn. -/
def saveRound (db : DB) (rdid : Nat) (userContent asstContent : String) : DB :=
  create_review_file_llm_message
    (create_review_file_llm_message db rdid "user" userContent)
    rdid "assistant" asstContent

/-- `N` complete review rounds of one discussion, each contributing its
user prompt and assistant reply. -/
def saveRounds (db : DB) (rdid : Nat) : List (String × String) → DB
  | [] => db
  | r :: rs => saveRounds (saveRound db rdid r.1 r.2) rdid rs

/-- Reachable database states: the rows are in strictly increasing key
order and every key is below the auto-increment counter. -/
def DB.Wf (db : DB) : Prop :=
  db.msgs.Pairwise (fun a b => a.id < b.id) ∧ ∀ m ∈ db.msgs, m.id < db.nextId

/-! ## Embedding of `Service.chat` (`src/llm.py`)

The network attempt (`client.chat.completions.create` plus response
validation and `parse_response`) is an oracle from the attempt index to a
result or a raised error's text.  A run is summarised by its returned or
raised value, how many network attempts were made, and the seconds slept
between attempts. -/

/-- `f"LLM请求失败，已重试{self.max_retries}次: {last_exception}"`. -/
def finalErrMsg (maxRetries : Nat) (lastErr : String) : String :=
  ("LLM请求失败，已重试" ++ toString maxRetries ++ "次: ") ++ lastErr

structure ChatTrace where
  result : Except String String
  networkCalls : Nat
  sleeps : List Nat

/-- The `for attempt in range(self.max_retries)` loop, structured over the
number of loop iterations still to run (`remaining = maxRetries - attempt`
throughout): each failed attempt logs, sleeps `2 ** attempt` seconds
unless it was the last attempt, and retries; exhausting the loop raises
the aggregate error built from the last exception. -/
def runAttempts (oracle : Nat → Except String String) (maxRetries : Nat) :
    (remaining attempt : Nat) → (lastErr : String) → ChatTrace
  | 0, _, lastErr => ⟨.error (finalErrMsg maxRetries lastErr), 0, []⟩
  | remaining + 1, attempt, _ =>
    match oracle attempt with
    | .ok r => ⟨.ok r, 1, []⟩
    | .error e =>
      let rest := runAttempts oracle maxRetries remaining (attempt + 1) e
      ⟨rest.result, rest.networkCalls + 1,
        (if attempt < maxRetries - 1 then [2 ^ attempt] else []) ++ rest.sleeps⟩

/-- `Service.chat`: raise `ValueError` on an empty message list before any
network activity, otherwise run the retry loop over its `max_retries`
iterations (`str(None)` stands for the text of the never-assigned last
exception when the loop runs zero times). -/
def chat (messages : List (String × String)) (oracle : Nat → Except String String)
    (maxRetries : Nat) : ChatTrace :=
  if messages = [] then ⟨.error "log.llm_empty_messages", 0, []⟩
  else runAttempts oracle maxRetries maxRetries 0 "None"

/-- The `try` body of `ReviewManager._review_single_file`: look the file's
discussion up (a storage read that may raise) and dispatch; the two
callees never raise, each carrying its own catch-all. -/
def _review_single_file_body (env : FileEnv) : PyResult Bool :=
  if env.getDiscussionIdRaises then .error ("SQLAlchemyError", Effects.nil)
  else if env.hasStoredDiscussion then .ok (_update_existing_discussion env)
  else .ok (_create_new_discussion env)

/-- `ReviewManager._review_single_file`: the pipeline-level catch-all turns
any escaped exception into a `false` result. -/
def _review_single_file (env : FileEnv) : Bool × Effects :=
  pyTry (_review_single_file_body env) (fun _ eff => (false, eff + logErr))

/-- `env` with the three record-saving failure oracles turned off. -/
def clearSaveFailures (env : FileEnv) : FileEnv :=
  { env with
      createRecordRaises := false,
      createUserMsgRaises := false,
      createAsstMsgRaises := false }

/-- Concrete run for C4: the file's existing unresolved discussion, an
approving LLM verdict, and a storage failure in the record-saving step. -/
def envSaveFails : FileEnv :=
  ⟨"model-x", true, false, false, false, [], false, false,
    ⟨true, .arr [], .arr [], 10, "lgtm"⟩,
    true, false, false, false, false, false, false⟩

/-- Concrete run for C5: the file's stored discussion is already resolved
on the host. -/
def envResolved : FileEnv :=
  ⟨"m", true, false, false, true, [], false, false,
    ⟨false, .arr [], .arr [], 0, ""⟩,
    false, false, false, false, false, false, false⟩

/-- Concrete verdict for C9. -/
def verdictTwoIssues : LlmResp := ⟨true, .arr ["a", "b"], .arr ["s"], 9, "fine"⟩

end GitlabReview

namespace GitlabReview

/-- The accumulator loop computes the two counts of the specification. -/
theorem tallyResults_eq_counts (results : List FileReviewResult) :
    tallyResults results =
      (results.countP (fun r => r = FileReviewResult.ok true),
        results.countP (fun r => r = FileReviewResult.exn)) := by
  suffices h : ∀ a e : Nat,
      results.foldl
        (fun ae r =>
          match r with
          | .exn => (ae.1, ae.2 + 1)
          | .ok b => if b then (ae.1 + 1, ae.2) else ae)
        (a, e) =
      (a + results.countP (fun r => r = FileReviewResult.ok true),
        e + results.countP (fun r => r = FileReviewResult.exn)) by
    simpa [tallyResults] using h 0 0
  induction results with
  | nil => intro a e; simp
  | cons r rs ih =>
    intro a e
    cases r with
    | exn => simp [List.countP_cons, ih]; omega
    | ok b =>
      cases b with
      | false => simp [List.countP_cons, ih]
      | true => simp [List.countP_cons, ih ]; omega

/-- C1: the coordinator auto-approves exactly when some file survived and
every surviving (non-erroring) file was approved, where the denominator
excludes errored tasks; consequently a batch with an errored file still
auto-approves when every other file passed. -/
theorem auto_approval_rule :
    (∀ results : List FileReviewResult,
        autoApprove results = true ↔
          (0 < results.length - results.countP (fun r => r = FileReviewResult.exn) ∧
            results.countP (fun r => r = FileReviewResult.ok true) =
              results.length - results.countP (fun r => r = FileReviewResult.exn))) ∧
    autoApprove [FileReviewResult.ok true, FileReviewResult.exn] = true := by
  constructor
  · intro results
    unfold autoApprove approvedCount totalReviewed errorCount
    rw [tallyResults_eq_counts]
    simp [and_comm]
  · decide

/-- C2: with more than 20 eligible files the coordinator posts exactly one
notification and performs zero pipeline invocations and zero LLM calls;
with at most 20 eligible files no notification is posted and exactly the
eligible files are reviewed. -/
theorem file_limit_guard :
    (∀ (changes : List Change) (pipe : Change → PipelineStats),
        20 < (changes.filter (fun c => _should_review_file c)).length →
          review_mr_change_files changes pipe =
            ⟨1, [], 0, false⟩) ∧
    (∀ (changes : List Change) (pipe : Change → PipelineStats),
        (changes.filter (fun c => _should_review_file c)).length ≤ 20 →
          (review_mr_change_files changes pipe).notifications = 0 ∧
          (review_mr_change_files changes pipe).invoked =
            changes.filter (fun c => _should_review_file c)) := by
  constructor
  · intro changes pipe hgt
    have hne : ¬(changes.filter (fun c => _should_review_file c) = []) := by
      intro e
      rw [e] at hgt
      simp at hgt
    simp [review_mr_change_files, hne, hgt]
  · intro changes pipe hle
    by_cases he : changes.filter (fun c => _should_review_file c) = []
    · simp [review_mr_change_files, he]
    · have hngt : ¬(20 < (changes.filter (fun c => _should_review_file c)).length) := by
        omega
      simp [review_mr_change_files, he, hngt]

/-- C3: a change is reviewed iff the effective path (new path if present,
else old path) is a supported file, the change is not deleted, and it is
not a rename with an empty/absent diff; in particular every deleted change
and every rename with empty diff is rejected. -/
theorem should_review_file_characterization :
    (∀ c : Change,
        _should_review_file c = true ↔
          (is_supported_file (effectiveFilePath c) = true ∧
            c.deleted_file = false ∧
            ¬(c.renamed_file = true ∧ c.diff = ""))) ∧
    (∀ c : Change, c.deleted_file = true → _should_review_file c = false) ∧
    (∀ c : Change, c.renamed_file = true → c.diff = "" →
        _should_review_file c = false) := by
  refine ⟨?_, ?_, ?_⟩
  · intro c
    unfold _should_review_file
    by_cases hs : is_supported_file (effectiveFilePath c) = true
    · simp only [hs, not_true_eq_false, if_false]
      by_cases hd : c.deleted_file
      · simp [hd]
      · by_cases hr : c.renamed_file = true ∧ c.diff = ""
        · simp [hr, hd]
        · simp [hr, hd, hs]
    · simp [hs]
  · intro c hd
    unfold _should_review_file
    by_cases hs : is_supported_file (effectiveFilePath c) = true
    · simp [hs, hd]
    · simp [hs]
  · intro c hr hdiff
    unfold _should_review_file
    by_cases hs : is_supported_file (effectiveFilePath c) = true
    · by_cases hd : c.deleted_file
      · simp [hs, hd]
      · simp [hs, hd, hr, hdiff]
    · simp [hs]

/-- C8 (code behaviour at the failing input): extension matching lowercases
the suffix before the membership test, so `"Test.PY"` — which differs from
the allow-listed `".py"` only in letter case — is accepted, exactly like
`"Test.py"`.  The repository's own test
(`test_is_supported_file_case_sensitivity`) asserts
`is_supported_file('Test.PY') is False`. -/
theorem is_supported_file_uppercase_extension_accepted :
    is_supported_file "Test.PY" = true ∧ is_supported_file "Test.py" = true := by
  constructor <;> decide

/-- C10: the support check rejects the empty path, accepts the bare
special filename `"Makefile"`, and — because the special-filename test
compares the *entire* path string against `{"Makefile"}` while such a name
has an empty suffix — rejects every other path whose final component is
`Makefile`, e.g. `"src/Makefile"`. -/
theorem is_supported_file_special_filename_whole_path :
    is_supported_file "" = false ∧
    is_supported_file "Makefile" = true ∧
    (∀ p : String, pathName p = "Makefile" → p ≠ "Makefile" →
        is_supported_file p = false) ∧
    is_supported_file "src/Makefile" = false := by
  refine ⟨by decide, by decide, ?_, by decide⟩
  intro p hname hne
  have hp : ¬(p = "") := by
    intro e
    rw [e] at hname
    exact absurd hname (by decide)
  have hsuf : pathSuffix p = "" := by
    unfold pathSuffix
    rw [hname]
    decide
  have hsp : ¬(p ∈ SPECIAL_FILENAMES) := by
    simp only [SPECIAL_FILENAMES, List.mem_singleton]
    exact hne
  unfold is_supported_file
  rw [if_neg hp, if_neg hsp, hsuf]
  decide

/-! ### Helper lemmas about `Effects` sums and the pipeline helpers -/

theorem Effects.add_records (a b : Effects) :
    (a + b).records = a.records ++ b.records := rfl

theorem Effects.add_commentInputs (a b : Effects) :
    (a + b).commentInputs = a.commentInputs ++ b.commentInputs := rfl

theorem Effects.add_llmCalls (a b : Effects) :
    (a + b).llmCalls = a.llmCalls + b.llmCalls := rfl

theorem Effects.add_messagesPersisted (a b : Effects) :
    (a + b).messagesPersisted = a.messagesPersisted + b.messagesPersisted := rfl

theorem Effects.add_discussionRows (a b : Effects) :
    (a + b).discussionRows = a.discussionRows + b.discussionRows := rfl

theorem Effects.add_errorsLogged (a b : Effects) :
    (a + b).errorsLogged = a.errorsLogged + b.errorsLogged := rfl

/-- Every `ReviewFileRecord` row the record-saving helper writes is the one
built from the response it received, and it posts no comment. -/
theorem save_records_consistent (env : FileEnv) (resp : LlmResp) :
    ((_save_discussion_records env resp).records.all
        (fun r => r == recordOf env.model resp)) = true ∧
    (_save_discussion_records env resp).commentInputs = [] := by
  by_cases h1 : env.createRecordRaises = true <;>
  by_cases h2 : env.createUserMsgRaises = true <;>
  by_cases h3 : env.createAsstMsgRaises = true <;>
  simp [_save_discussion_records, _save_discussion_records_body, pyTry, h1, h2, h3,
    Effects.nil, logErr, Effects.add_records, Effects.add_commentInputs]

theorem update_fst_ignores_save (env : FileEnv) :
    (_update_existing_discussion (clearSaveFailures env)).1 =
      (_update_existing_discussion env).1 := by
  by_cases h3 : env.fetchDiscussionRaises = true <;>
  by_cases h4 : (env.discussionResolved || env.noteResolved.any (fun b => b)) = true <;>
  by_cases h5 : env.getHistoryRaises = true <;>
  by_cases h6 : env.postCommentRaises = true <;>
  by_cases h7 : env.llmRaises = true <;>
  by_cases h8 : env.llmVerdict.approved = true <;>
  simp [clearSaveFailures, _update_existing_discussion, _update_existing_discussion_body,
    _perform_llm_review, _update_llm_resp, defaultRejectedVerdict, pyTry,
    h3, h4, h5, h6, h7, h8]

theorem create_fst_ignores_save (env : FileEnv) :
    (_create_new_discussion (clearSaveFailures env)).1 =
      (_create_new_discussion env).1 := by
  by_cases h6 : env.hostCreateDiscussionRaises = true <;>
  by_cases h7 : env.createDiscussionRowRaises = true <;>
  by_cases h8 : env.llmRaises = true <;>
  by_cases h9 : env.llmVerdict.approved = true <;>
  simp [clearSaveFailures, _create_new_discussion, _create_new_discussion_body,
    _perform_llm_review, _update_llm_resp, defaultRejectedVerdict, pyTry,
    h6, h7, h8, h9]

/-- C4 (counterexample): with the record-saving storage call raising, the
pipeline still returns `true` for the file — the failure is not converted
into a `false` (not-approved) result. -/
theorem storage_failure_not_converted_to_false :
    envSaveFails.createRecordRaises = true ∧
    (_review_single_file envSaveFails).1 = true := by
  constructor <;> rfl

/-- C4 (amended): a storage failure in the record-saving steps is caught
and logged *inside* `_save_discussion_records` itself, which returns
normally, so the file's verdict is unchanged (not forced to `false`); any
exception that does reach the pipeline level is converted by the
pipeline's catch-all into a `false` result, so nothing propagates to the
coordinator's gather. -/
theorem storage_failure_swallowed_in_helper :
    (∀ (env : FileEnv) (resp : LlmResp),
        env.createRecordRaises = true ∨ env.createUserMsgRaises = true ∨
          env.createAsstMsgRaises = true →
        (∃ msg eff, _save_discussion_records_body env resp =
            Except.error (msg, eff)) ∧
        (_save_discussion_records env resp).errorsLogged = 1) ∧
    (∀ env : FileEnv,
        (_review_single_file (clearSaveFailures env)).1 =
          (_review_single_file env).1) ∧
    (∀ (env : FileEnv) (msg : String) (eff : Effects),
        _review_single_file_body env = Except.error (msg, eff) →
        _review_single_file env = (false, eff + logErr)) := by
  refine ⟨?_, ?_, ?_⟩
  · intro env resp h
    by_cases h1 : env.createRecordRaises = true
    · refine ⟨⟨"SQLAlchemyError", Effects.nil, ?_⟩, ?_⟩
      · simp [_save_discussion_records_body, h1]
      · simp [_save_discussion_records, _save_discussion_records_body, pyTry, h1]
        decide
    · by_cases h2 : env.createUserMsgRaises = true
      · refine ⟨⟨"SQLAlchemyError", ⟨0, [recordOf env.model resp], 0, 0, [], 0⟩, ?_⟩, ?_⟩
        · simp [_save_discussion_records_body, h1, h2]
        · simp [_save_discussion_records, _save_discussion_records_body, pyTry, h1, h2,
            Effects.add_errorsLogged, logErr]
      · by_cases h3 : env.createAsstMsgRaises = true
        · refine ⟨⟨"SQLAlchemyError",
            (⟨0, [recordOf env.model resp], 0, 0, [], 0⟩ + ⟨0, [], 1, 0, [], 0⟩ : Effects), ?_⟩, ?_⟩
          · simp [_save_discussion_records_body, h1, h2, h3]
          · simp [_save_discussion_records, _save_discussion_records_body, pyTry, h1, h2, h3,
              Effects.add_errorsLogged, logErr]
        · simp [h1, h2, h3] at h
  · intro env
    have hu := update_fst_ignores_save env
    have hc := create_fst_ignores_save env
    by_cases h1 : env.getDiscussionIdRaises = true <;>
    by_cases h2 : env.hasStoredDiscussion = true <;>
    simp [clearSaveFailures, _review_single_file, _review_single_file_body, pyTry,
      h1, h2] <;>
    simp [clearSaveFailures] at hu hc <;>
    [exact hu; exact hc]
  · intro env msg eff h
    simp [_review_single_file, h, pyTry]

/-- C5: for a file with a stored discussion id whose fetched discussion is
resolved (at the discussion level or on any note), the pipeline returns
`true` immediately with no side effects at all: zero LLM calls, no
persisted rows, no posted comment. -/
theorem resolved_discussion_short_circuit (env : FileEnv)
    (h1 : env.hasStoredDiscussion = true)
    (h2 : env.getDiscussionIdRaises = false)
    (h3 : env.fetchDiscussionRaises = false)
    (h4 : env.discussionResolved = true ∨ env.noteResolved.any (fun b => b) = true) :
    _review_single_file env = (true, Effects.nil) := by
  have h4' : (env.discussionResolved || env.noteResolved.any (fun b => b)) = true := by
    rcases h4 with h | h <;> simp [h]
  simp [_review_single_file, _review_single_file_body, _update_existing_discussion,
    _update_existing_discussion_body, pyTry, h1, h2, h3, h4']

/-- C5 (witness): the short-circuit at a concrete environment. -/
theorem resolved_discussion_short_circuit_witness :
    _review_single_file envResolved = (true, Effects.nil) :=
  resolved_discussion_short_circuit envResolved rfl rfl rfl (Or.inl rfl)

/-! ### C9: the numbered-list rendering and what gets persisted -/

/-- The LLM-review step itself persists nothing and posts nothing. -/
theorem perform_llm_review_effects (env : FileEnv) :
    (_perform_llm_review env).2.records = [] ∧
    (_perform_llm_review env).2.commentInputs = [] := by
  by_cases h : env.llmRaises = true <;> simp [_perform_llm_review, h]

theorem update_effects_consistent (env : FileEnv) :
    ((_update_existing_discussion env).2.records.all
        (fun r => r == recordOf env.model (_perform_llm_review env).1)) = true ∧
    ((_update_existing_discussion env).2.commentInputs.all
        (fun r => r == (_perform_llm_review env).1)) = true := by
  obtain ⟨hs1, hs2⟩ := save_records_consistent env (_perform_llm_review env).1
  obtain ⟨hp1, hp2⟩ := perform_llm_review_effects env
  by_cases h3 : env.fetchDiscussionRaises = true <;>
  by_cases h4 : (env.discussionResolved || env.noteResolved.any (fun b => b)) = true <;>
  by_cases h5 : env.getHistoryRaises = true <;>
  by_cases h6 : env.postCommentRaises = true <;>
  by_cases h9 : (_perform_llm_review env).1.approved = true <;>
  by_cases h10 : env.resolveRaises = true <;>
  simp [_update_existing_discussion, _update_existing_discussion_body,
    _resolve_discussion, pyTry, h3, h4, h5, h6, h9, h10, Effects.nil, logErr,
    Effects.add_records, Effects.add_commentInputs, hs1, hs2, hp1, hp2]

theorem create_effects_consistent (env : FileEnv) :
    ((_create_new_discussion env).2.records.all
        (fun r => r == recordOf env.model (_perform_llm_review env).1)) = true ∧
    ((_create_new_discussion env).2.commentInputs.all
        (fun r => r == (_perform_llm_review env).1)) = true := by
  obtain ⟨hs1, hs2⟩ := save_records_consistent env (_perform_llm_review env).1
  obtain ⟨hp1, hp2⟩ := perform_llm_review_effects env
  by_cases h7 : env.hostCreateDiscussionRaises = true <;>
  by_cases h8 : env.createDiscussionRowRaises = true <;>
  by_cases h9 : (_perform_llm_review env).1.approved = true <;>
  by_cases h10 : env.resolveRaises = true <;>
  simp [_create_new_discussion, _create_new_discussion_body,
    _resolve_discussion, pyTry, h7, h8, h9, h10, Effects.nil, logErr,
    Effects.add_records, Effects.add_commentInputs, hs1, hs2, hp1, hp2]

/-- C9 (counterexample): the persisted `issue` field holds the single
newline-joined numbered string, not the ordered sequence of issue
strings. -/
theorem record_stores_rendered_string_not_list :
    (recordOf "m" (_update_llm_resp verdictTwoIssues)).issue = JVal.str "1. a\n2. b" ∧
    JVal.str "1. a\n2. b" ≠ JVal.arr ["a", "b"] := by
  constructor
  · rfl
  · decide

/-- C9 (amended): `_update_llm_resp` rewrites the verdict's issue and
suggestion lists into their 1-based numbered newline-joined renderings
right after the verdict is obtained, and it is this once-transformed
response — strings, not lists — that both persistence and comment
rendering consume throughout the pipeline. -/
theorem numbered_rendering_applied_once :
    (∀ (v : LlmResp) (is ss : List String) (m : String),
        v.issues = JVal.arr is → v.suggestions = JVal.arr ss →
        recordOf m (_update_llm_resp v) =
          ⟨v.approved, v.score, JVal.str (numberedJoin is),
            JVal.str (numberedJoin ss), v.summary, m⟩) ∧
    (∀ env : FileEnv,
        (_perform_llm_review env).1 =
          _update_llm_resp
            (if env.llmRaises then defaultRejectedVerdict else env.llmVerdict)) ∧
    (∀ env : FileEnv,
        ((_review_single_file env).2.records.all
            (fun r => r == recordOf env.model (_perform_llm_review env).1)) = true ∧
        ((_review_single_file env).2.commentInputs.all
            (fun r => r == (_perform_llm_review env).1)) = true) := by
  refine ⟨?_, ?_, ?_⟩
  · intro v is ss m hI hS
    simp [recordOf, _update_llm_resp, pyIter, hI, hS]
  · intro env
    by_cases h : env.llmRaises = true <;> simp [_perform_llm_review, h]
  · intro env
    obtain ⟨hu1, hu2⟩ := update_effects_consistent env
    obtain ⟨hc1, hc2⟩ := create_effects_consistent env
    by_cases h1 : env.getDiscussionIdRaises = true <;>
    by_cases h2 : env.hasStoredDiscussion = true <;>
    simp [_review_single_file, _review_single_file_body, pyTry, h1, h2,
      Effects.nil, logErr, Effects.add_records, Effects.add_commentInputs,
      hu1, hu2, hc1, hc2]

/-! ### C6: message ordering -/

theorem sortById_pairwise_eq :
    ∀ l : List Msg, l.Pairwise (fun a b => a.id < b.id) → sortById l = l := by
  intro l h
  induction l with
  | nil => rfl
  | cons x xs ih =>
    rw [List.pairwise_cons] at h
    obtain ⟨hx, hxs⟩ := h
    have ihx := ih hxs
    cases xs with
    | nil => simp [sortById, insertById]
    | cons y ys =>
      simp only [sortById] at ihx ⊢
      rw [ihx]
      simp [insertById, Nat.le_of_lt (hx y (by simp))]

theorem wf_create (db : DB) (rdid : Nat) (role content : String) (h : DB.Wf db) :
    DB.Wf (create_review_file_llm_message db rdid role content) := by
  obtain ⟨hp, hb⟩ := h
  constructor
  · simp only [create_review_file_llm_message, List.pairwise_append]
    refine ⟨hp, by simp, ?_⟩
    intro a ha b hb'
    simp only [List.mem_singleton] at hb'
    subst hb'
    exact hb a ha
  · intro m hm
    simp only [create_review_file_llm_message, List.mem_append,
      List.mem_singleton] at hm
    rcases hm with hm | hm
    · exact Nat.lt_succ_of_lt (hb m hm)
    · subst hm
      exact Nat.lt_succ_self _

theorem get_create_eq (db : DB) (rdid : Nat) (role content : String) (h : DB.Wf db) :
    get_review_file_llm_messages (create_review_file_llm_message db rdid role content)
        rdid =
      get_review_file_llm_messages db rdid ++ [(role, content)] := by
  obtain ⟨hp, hb⟩ := h
  have hpf : (db.msgs.filter (fun m => m.review_discussion_id = rdid)).Pairwise
      (fun a b => a.id < b.id) := hp.filter _
  have hall : ∀ m ∈ db.msgs.filter (fun m => m.review_discussion_id = rdid),
      m.id < db.nextId := by
    intro m hm
    exact hb m (List.mem_of_mem_filter hm)
  have h1 : (db.msgs ++ [(⟨db.nextId, rdid, role, content⟩ : Msg)]).filter
        (fun m => m.review_discussion_id = rdid) =
      db.msgs.filter (fun m => m.review_discussion_id = rdid) ++
        [(⟨db.nextId, rdid, role, content⟩ : Msg)] := by
    simp [List.filter_append]
  have h2 : (db.msgs.filter (fun m => m.review_discussion_id = rdid) ++
        [(⟨db.nextId, rdid, role, content⟩ : Msg)]).Pairwise
        (fun a b => a.id < b.id) := by
    rw [List.pairwise_append]
    refine ⟨hpf, by simp, ?_⟩
    intro a ha b hb'
    simp only [List.mem_singleton] at hb'
    subst hb'
    exact hall a ha
  unfold get_review_file_llm_messages create_review_file_llm_message
  dsimp only
  rw [h1, sortById_pairwise_eq _ h2, sortById_pairwise_eq _ hpf]
  simp

theorem join_pairs_length (rounds : List (String × String)) :
    ((rounds.map (fun r => [("user", r.1), ("assistant", r.2)])).join).length =
      2 * rounds.length := by
  induction rounds with
  | nil => simp
  | cons r rs ih =>
    simp only [List.map_cons, List.join_cons, List.length_append, List.length_cons,
      List.length_nil, ih]
    omega

theorem join_pairs_roles (rounds : List (String × String)) :
    ((rounds.map (fun r => [("user", r.1), ("assistant", r.2)])).join).map
        Prod.fst =
      (List.replicate rounds.length ["user", "assistant"]).join := by
  induction rounds with
  | nil => simp
  | cons r rs ih =>
    simp [List.replicate_succ, ih]

theorem wf_saveRound (db : DB) (rdid : Nat) (u a : String) (h : DB.Wf db) :
    DB.Wf (saveRound db rdid u a) :=
  wf_create _ _ _ _ (wf_create _ _ _ _ h)

theorem get_saveRound (db : DB) (rdid : Nat) (u a : String) (h : DB.Wf db) :
    get_review_file_llm_messages (saveRound db rdid u a) rdid =
      get_review_file_llm_messages db rdid ++ [("user", u), ("assistant", a)] := by
  unfold saveRound
  rw [get_create_eq _ _ _ _ (wf_create _ _ _ _ h), get_create_eq _ _ _ _ h]
  simp

theorem get_saveRounds (rdid : Nat) :
    ∀ (rounds : List (String × String)) (db : DB), DB.Wf db →
      get_review_file_llm_messages (saveRounds db rdid rounds) rdid =
        get_review_file_llm_messages db rdid ++
          (rounds.map (fun r => [("user", r.1), ("assistant", r.2)])).join := by
  intro rounds
  induction rounds with
  | nil =>
    intro db h
    simp [saveRounds]
  | cons r rs ih =>
    intro db h
    simp only [saveRounds]
    rw [ih _ (wf_saveRound _ _ _ _ h), get_saveRound _ _ _ _ h]
    simp

/-- C6: retrieval returns a discussion's turns in strict creation
(insertion) order over every reachable database, and a discussion that
starts empty holds, after `N` complete review rounds, exactly the rounds'
`2 * N` turns: each round one user turn then one assistant turn, so the
roles alternate starting at `"user"`. -/
theorem llm_messages_ordered_and_paired :
    (∀ (db : DB) (rdid : Nat), DB.Wf db →
        get_review_file_llm_messages db rdid =
          (db.msgs.filter (fun m => m.review_discussion_id = rdid)).map
            (fun m => (m.role, m.content))) ∧
    (∀ (db : DB) (rdid : Nat) (rounds : List (String × String)), DB.Wf db →
        get_review_file_llm_messages db rdid = [] →
        get_review_file_llm_messages (saveRounds db rdid rounds) rdid =
          (rounds.map (fun r => [("user", r.1), ("assistant", r.2)])).join ∧
        (get_review_file_llm_messages (saveRounds db rdid rounds) rdid).length =
          2 * rounds.length ∧
        (get_review_file_llm_messages (saveRounds db rdid rounds) rdid).map
            Prod.fst =
          (List.replicate rounds.length ["user", "assistant"]).join) := by
  constructor
  · intro db rdid h
    unfold get_review_file_llm_messages
    rw [sortById_pairwise_eq _ (h.1.filter _)]
  · intro db rdid rounds h hempty
    have heq := get_saveRounds rdid rounds db h
    rw [hempty, List.nil_append] at heq
    refine ⟨heq, ?_, ?_⟩
    · rw [heq]
      exact join_pairs_length rounds
    · rw [heq]
      exact join_pairs_roles rounds

/-! ### C7: the retry loop of `Service.chat` -/

theorem runAttempts_all_fail (oracle : Nat → Except String String)
    (es : Nat → String) (ho : ∀ i, oracle i = .error (es i)) (n : Nat) :
    ∀ (remaining attempt : Nat) (lastErr : String),
      attempt + remaining = n → 0 < remaining →
      runAttempts oracle n remaining attempt lastErr =
        ⟨.error (finalErrMsg n (es (n - 1))), remaining,
          (List.range' attempt (remaining - 1)).map (fun i => 2 ^ i)⟩ := by
  intro remaining
  induction remaining with
  | zero =>
    intro attempt lastErr hk h0
    omega
  | succ r ih =>
    intro attempt lastErr hk h0
    cases r with
    | zero =>
      have h1 : n - 1 = attempt := by omega
      have h2 : ¬(attempt < n - 1) := by omega
      simp [runAttempts, ho attempt, h2, h1]
    | succ s =>
      have h1 : (attempt + 1) + (s + 1) = n := by omega
      have hlt : attempt < n - 1 := by omega
      conv_lhs => unfold runAttempts
      rw [ho attempt]
      dsimp only
      rw [ih (attempt + 1) (es attempt) h1 (Nat.succ_pos s)]
      simp only [if_pos hlt, ChatTrace.mk.injEq]
      refine ⟨trivial, trivial, ?_⟩
      rw [show s + 1 + 1 - 1 = s + 1 from rfl, List.range'_succ]
      simp

/-- C7: `Service.chat` raises immediately on an empty message list with
zero network attempts; when every attempt fails it makes exactly
`max_retries` attempts, sleeping `2 ** attempt` seconds after each
non-final attempt (base-2 exponential backoff: 1s, 2s for the default 3
attempts), and finally raises the aggregate error whose text extends the
last underlying error's description. -/
theorem chat_retry_behaviour :
    (∀ (oracle : Nat → Except String String) (n : Nat),
        chat [] oracle n = ⟨.error "log.llm_empty_messages", 0, []⟩) ∧
    (∀ (messages : List (String × String)) (oracle : Nat → Except String String)
        (es : Nat → String) (n : Nat),
        messages ≠ [] → 0 < n → (∀ i, oracle i = .error (es i)) →
        chat messages oracle n =
          ⟨.error (finalErrMsg n (es (n - 1))), n,
            (List.range' 0 (n - 1)).map (fun i => 2 ^ i)⟩) ∧
    (∀ (n : Nat) (e : String), ∃ p, finalErrMsg n e = p ++ e) ∧
    (List.range' 0 2).map (fun i => 2 ^ i) = [1, 2] := by
  refine ⟨?_, ?_, ?_, ?_⟩
  · intro oracle n
    simp [chat]
  · intro messages oracle es n hne hn ho
    unfold chat
    rw [if_neg hne]
    have := runAttempts_all_fail oracle es ho n n 0 "None" (by omega) hn
    simpa using this
  · intro n e
    exact ⟨"LLM请求失败，已重试" ++ toString n ++ "次: ", rfl⟩
  · decide

end GitlabReview
